import Mathlib

/-!
Verification development for the `c_dev_tools` C/C++ build orchestrator
(Rust sources under `src/`).  The definitions below are a shallow embedding
of the build engine: filesystem paths are modelled as lists of components,
commands as lists of argument strings, and the stateful `Builder::build`
pipeline as a pure function from an explicit input state (resolved sources,
current file hashes, hash store on disk, flags) to a run record.
-/

namespace CBuild

/-! ## Paths

A filesystem path is modelled as its list of components (Rust `PathBuf`).
`pathStr` renders a path the way it appears as a process argument. -/

abbrev Path := List String

def pathStr (p : Path) : String := String.intercalate "/" p

/-- Rust `Path::is_absolute` on the string form of a path (POSIX). -/
def isAbsolute (s : String) : Bool := s.startsWith "/"

/-- Include/link directory resolution from `builder.rs`: an absolute dir is
used as-is, a relative one is joined onto the project directory. -/
def resolveDirArg (projectDir : Path) (d : String) : String :=
  if isAbsolute d then d else pathStr projectDir ++ "/" ++ d

/-! ## `with_extension("o")`

`builder.rs` derives object paths with `PathBuf::with_extension("o")`,
which REPLACES the final extension of the file name (the part after the
last dot, a leading dot not counting) rather than appending `.o`. -/

/-- Walk a reversed character list and return the characters after the
first dot found (i.e. before the last dot of the original list). -/
def revAfterDot : List Char → Option (List Char)
  | [] => none
  | c :: cs => if c = '.' then some cs else revAfterDot cs

/-- Rust `Path::file_stem` on a file name: the portion before the last dot;
if there is no dot, or the portion before it is empty (a leading-dot name
such as `.gitignore`), the whole name. -/
def fileStem (name : String) : String :=
  match revAfterDot name.data.reverse with
  | none => name
  | some rest => if rest = [] then name else String.mk rest.reverse

/-- Rust `set_extension("o")` on a file name: `file_stem + ".o"`. -/
def setExtO (name : String) : String := fileStem name ++ ".o"

/-- Rust `PathBuf::with_extension("o")`: rewrite the last component
(the file name); a path with no components is unchanged. -/
def withExtO : Path → Path
  | [] => []
  | [x] => [setExtO x]
  | x :: y :: xs => x :: withExtO (y :: xs)

/-- `source.strip_prefix(&self.project_dir).unwrap_or(source)` from
`builder.rs`: drop the project-dir components when they lead the source
path, otherwise keep the full source path. -/
def stripPrefixOrSelf (pre p : Path) : Path :=
  if pre <+: p then p.drop pre.length else p

/-- Object path computed in `Builder::compile_sources`:
`build_dir.join("obj").join(rel_path).with_extension("o")`. -/
def objectPath (buildDir projectDir src : Path) : Path :=
  buildDir ++ ["obj"] ++ withExtO (stripPrefixOrSelf projectDir src)

/-- The identical object-path computation repeated verbatim in the four
link sub-phases (`link_static_libraries`, `link_shared_libraries`,
`link_executables`, `link_tests`). -/
def linkObjectPath (buildDir projectDir src : Path) : Path :=
  buildDir ++ ["obj"] ++ withExtO (stripPrefixOrSelf projectDir src)

/-- `Builder::new`: `build_dir = project_dir.join("build").join(configuration)`,
for an arbitrary configuration string. -/
def buildDirOf (projectDir : Path) (configuration : String) : Path :=
  projectDir ++ ["build", configuration]

/-! ## Manifest data model (`config.rs`)

`Option` fields mirror the Rust `Option` fields.  A Rust
`HashMap<String, String>` of defines is modelled as an association list;
its iteration order is unspecified in Rust, and no theorem below depends
on the order of that list. -/

structure ExecutableTarget where
  name : String
  src : List String
  include_dirs : Option (List String)
  link_dirs : Option (List String)
  libs : Option (List String)
  defines : Option (List (String × String))
  extra_flags : Option (List String)

structure LibraryTarget where
  name : String
  src : List String
  include_dirs : Option (List String)
  defines : Option (List (String × String))
  extra_flags : Option (List String)

structure TestTarget where
  name : String
  src : List String
  include_dirs : Option (List String)
  link_dirs : Option (List String)
  libs : Option (List String)
  defines : Option (List (String × String))
  extra_flags : Option (List String)

structure Targets where
  executable : List ExecutableTarget
  static_lib : List LibraryTarget
  shared_lib : List LibraryTarget
  test : List TestTarget

structure BuildSettings where
  compiler : String
  c_standard : Option String
  cpp_standard : Option String
  optimization_level : Option Nat
  debug_info : Option Bool
  warnings_as_errors : Option Bool
  extra_flags : Option (List String)

structure BuildConfig where
  build : BuildSettings
  targets : Targets

/-! ## Errors (`error.rs`) -/

inductive BuildError where
  | IoError : String → BuildError
  | ConfigParsingError : String → BuildError
  | CompilerError : String → BuildError
  | LinkerError : String → BuildError
  | DependencyError : String → BuildError
  | PathError : String → BuildError
  | CompilerNotFound : String → BuildError
  | ConfigNotFound : String → BuildError
  | NoSourceFiles : String → BuildError
  | ExecutableNotFound : String → BuildError
deriving DecidableEq

/-! ## Source resolution (`config.rs::resolve_glob_patterns`)

Shell globbing is a filesystem effect; it enters the model as a function
`globFn` from the joined pattern string to either an error message
(`glob`'s pattern error / per-path read error, both of which `config.rs`
maps to `PathError`) or the matched file paths in the glob's order. -/

def resolveGlobList (globFn : String → Except String (List Path))
    (projectDir : Path) : List String → Except BuildError (List Path)
  | [] => .ok []
  | p :: ps =>
    let pat := if isAbsolute p then p else pathStr projectDir ++ "/" ++ p
    match globFn pat with
    | .error e => .error (.PathError e)
    | .ok fs =>
      match resolveGlobList globFn projectDir ps with
      | .error e => .error e
      | .ok rest => .ok (fs ++ rest)

/-- `resolve_glob_patterns`: expand every pattern of one target; if the
combined match list is empty, fail with `NoSourceFiles` carrying the
comma-joined pattern list (`patterns.join(", ")`). -/
def resolveGlobPatterns (globFn : String → Except String (List Path))
    (projectDir : Path) (patterns : List String) : Except BuildError (List Path) :=
  match resolveGlobList globFn projectDir patterns with
  | .error e => .error e
  | .ok files =>
    if files.isEmpty then .error (.NoSourceFiles (String.intercalate ", " patterns))
    else .ok files

/-- The `(target key, glob patterns)` pairs of a manifest, in the order
`resolve_source_files` iterates them: executables, static libs, shared
libs, tests, each keyed `"<kind>:<name>"`. -/
def targetKeyList (cfg : BuildConfig) : List (String × List String) :=
  cfg.targets.executable.map (fun t => ("exe:" ++ t.name, t.src))
    ++ cfg.targets.static_lib.map (fun t => ("static:" ++ t.name, t.src))
    ++ cfg.targets.shared_lib.map (fun t => ("shared:" ++ t.name, t.src))
    ++ cfg.targets.test.map (fun t => ("test:" ++ t.name, t.src))

def resolveKeyed (globFn : String → Except String (List Path)) (projectDir : Path) :
    List (String × List String) → Except BuildError (List (String × List Path))
  | [] => .ok []
  | (k, pats) :: rest =>
    match resolveGlobPatterns globFn projectDir pats with
    | .error e => .error e
    | .ok fs =>
      match resolveKeyed globFn projectDir rest with
      | .error e => .error e
      | .ok r => .ok ((k, fs) :: r)

/-- `BuildConfig::resolve_source_files`: target key → resolved sources,
first resolution error short-circuiting in manifest order. -/
def resolveSourceFiles (globFn : String → Except String (List Path))
    (cfg : BuildConfig) (projectDir : Path) :
    Except BuildError (List (String × List Path)) :=
  resolveKeyed globFn projectDir (targetKeyList cfg)

/-! ## Compile command assembly (`Builder::compile_sources`)

A command is modelled as its argument list (the program name,
`config.build.compiler`, is the same for every compile and does not enter
the claims).  The per-target lookups mirror the `match target_type` blocks
that search the manifest's target lists by name. -/

def findIncludeDirs (cfg : BuildConfig) (ttype tname : String) : List String :=
  if ttype = "exe" then
    ((cfg.targets.executable.find? (fun t => t.name == tname)).bind
      (fun t => t.include_dirs)).getD []
  else if ttype = "static" then
    ((cfg.targets.static_lib.find? (fun t => t.name == tname)).bind
      (fun t => t.include_dirs)).getD []
  else if ttype = "shared" then
    ((cfg.targets.shared_lib.find? (fun t => t.name == tname)).bind
      (fun t => t.include_dirs)).getD []
  else if ttype = "test" then
    ((cfg.targets.test.find? (fun t => t.name == tname)).bind
      (fun t => t.include_dirs)).getD []
  else []

def findDefines (cfg : BuildConfig) (ttype tname : String) : List (String × String) :=
  if ttype = "exe" then
    ((cfg.targets.executable.find? (fun t => t.name == tname)).bind
      (fun t => t.defines)).getD []
  else if ttype = "static" then
    ((cfg.targets.static_lib.find? (fun t => t.name == tname)).bind
      (fun t => t.defines)).getD []
  else if ttype = "shared" then
    ((cfg.targets.shared_lib.find? (fun t => t.name == tname)).bind
      (fun t => t.defines)).getD []
  else if ttype = "test" then
    ((cfg.targets.test.find? (fun t => t.name == tname)).bind
      (fun t => t.defines)).getD []
  else []

def findExtraFlags (cfg : BuildConfig) (ttype tname : String) : List String :=
  if ttype = "exe" then
    ((cfg.targets.executable.find? (fun t => t.name == tname)).bind
      (fun t => t.extra_flags)).getD []
  else if ttype = "static" then
    ((cfg.targets.static_lib.find? (fun t => t.name == tname)).bind
      (fun t => t.extra_flags)).getD []
  else if ttype = "shared" then
    ((cfg.targets.shared_lib.find? (fun t => t.name == tname)).bind
      (fun t => t.extra_flags)).getD []
  else if ttype = "test" then
    ((cfg.targets.test.find? (fun t => t.name == tname)).bind
      (fun t => t.extra_flags)).getD []
  else []

def stdArgs (cfg : BuildConfig) : List String :=
  match cfg.build.c_standard with
  | some s => ["-std=" ++ s]
  | none => []

def optArgs (cfg : BuildConfig) : List String :=
  match cfg.build.optimization_level with
  | some l => ["-O" ++ toString l]
  | none => []

def debugArgs (cfg : BuildConfig) : List String :=
  if cfg.build.debug_info.getD false then ["-g"] else []

def werrorArgs (cfg : BuildConfig) : List String :=
  if cfg.build.warnings_as_errors.getD false then ["-Werror"] else []

def includeArgs (cfg : BuildConfig) (ttype tname : String) (projectDir : Path) :
    List String :=
  (findIncludeDirs cfg ttype tname).flatMap
    (fun d => ["-I", resolveDirArg projectDir d])

def defineArgs (cfg : BuildConfig) (ttype tname : String) : List String :=
  (findDefines cfg ttype tname).map
    (fun kv => if kv.2 = "" then "-D" ++ kv.1 else "-D" ++ kv.1 ++ "=" ++ kv.2)

/-- `-DNDEBUG` exactly when the configuration string is `"release"`; every
other configuration string gets `-D_DEBUG`. -/
def configDefineArg (configuration : String) : List String :=
  if configuration = "release" then ["-DNDEBUG"] else ["-D_DEBUG"]

/-- `-fPIC` exactly when the target type string is `"shared"`. -/
def picArgs (ttype : String) : List String :=
  if ttype = "shared" then ["-fPIC"] else []

def globalExtraFlags (cfg : BuildConfig) : List String :=
  cfg.build.extra_flags.getD []

/-- The full compile argument list, in the order `compile_sources` pushes
the arguments. -/
def compileCmdArgs (cfg : BuildConfig) (configuration : String)
    (projectDir buildDir : Path) (ttype tname : String) (source : Path) :
    List String :=
  ["-c", pathStr source, "-o", pathStr (objectPath buildDir projectDir source)]
    ++ stdArgs cfg
    ++ optArgs cfg
    ++ debugArgs cfg
    ++ werrorArgs cfg
    ++ includeArgs cfg ttype tname projectDir
    ++ defineArgs cfg ttype tname
    ++ findExtraFlags cfg ttype tname
    ++ configDefineArg configuration
    ++ picArgs ttype
    ++ globalExtraFlags cfg

/-! ## Link command assembly (`Builder::link_*`)

The `cfg!(target_os = ...)` branches become a parameter. `onDisk` models
`Path::exists` at link time. Each link function receives the resolved
source list that `config.resolve_source_files(...)` returns for its
target key. -/

inductive OS where
  | linux
  | macos
  | windows
deriving DecidableEq

/-- Objects collected by every link sub-phase: each source's object path,
silently skipping (with only a warning) objects missing from disk. -/
def existingObjects (buildDir projectDir : Path) (onDisk : Path → Bool)
    (sources : List Path) : List Path :=
  (sources.map (linkObjectPath buildDir projectDir)).filter onDisk

/-- Archive path of a static-library target: `<build_dir>/lib/lib<name>.a`. -/
def slibPath (buildDir : Path) (name : String) : Path :=
  buildDir ++ ["lib", "lib" ++ name ++ ".a"]

/-- The implicit auto-link arguments: the archive path of every
static-library target of the manifest whose archive exists on disk, in
manifest order; the rest are omitted. -/
def staticLibArgs (cfg : BuildConfig) (buildDir : Path) (onDisk : Path → Bool) :
    List String :=
  (cfg.targets.static_lib.filter (fun l => onDisk (slibPath buildDir l.name))).map
    (fun l => pathStr (slibPath buildDir l.name))

def linkDirArgs (projectDir : Path) (dirs : Option (List String)) : List String :=
  (dirs.getD []).flatMap (fun d => ["-L", resolveDirArg projectDir d])

def libArgs (libs : Option (List String)) : List String :=
  (libs.getD []).map (fun l => "-l" ++ l)

def exeFileName (os : OS) (name : String) : String :=
  match os with
  | .windows => name ++ ".exe"
  | _ => name

def sharedLibFileName (os : OS) (name : String) : String :=
  match os with
  | .windows => name ++ ".dll"
  | .macos => "lib" ++ name ++ ".dylib"
  | .linux => "lib" ++ name ++ ".so"

/-- `-s` is appended on Linux/macOS exactly when the configuration string
is `"release"`. -/
def stripArgs (os : OS) (configuration : String) : List String :=
  if configuration = "release" then
    match os with
    | .windows => []
    | _ => ["-s"]
  else []

def rpathArgsExe (os : OS) (buildDir : Path) : List String :=
  match os with
  | .linux => ["-Wl,-rpath," ++ pathStr (buildDir ++ ["lib"])]
  | .macos => ["-Wl,-rpath,@executable_path/../lib"]
  | .windows => []

def rpathArgsTest (os : OS) (buildDir : Path) : List String :=
  match os with
  | .linux => ["-Wl,-rpath," ++ pathStr (buildDir ++ ["lib"])]
  | .macos => ["-Wl,-rpath,@executable_path/../../lib"]
  | .windows => []

/-- Shared-library link arguments (`link_shared_libraries`). -/
def linkSharedCmdArgs (os : OS) (configuration : String)
    (projectDir buildDir : Path) (lib : LibraryTarget) (onDisk : Path → Bool)
    (sources : List Path) : List String :=
  ["-shared", "-o", pathStr (buildDir ++ ["lib", sharedLibFileName os lib.name])]
    ++ (existingObjects buildDir projectDir onDisk sources).map pathStr
    ++ (match os with
        | .macos => ["-install_name", "@rpath/" ++ sharedLibFileName os lib.name]
        | _ => [])
    ++ stripArgs os configuration

/-- Executable link arguments (`link_executables`). -/
def linkExeCmdArgs (cfg : BuildConfig) (os : OS) (configuration : String)
    (projectDir buildDir : Path) (exe : ExecutableTarget) (onDisk : Path → Bool)
    (sources : List Path) : List String :=
  ["-o", pathStr (buildDir ++ ["bin", exeFileName os exe.name])]
    ++ (existingObjects buildDir projectDir onDisk sources).map pathStr
    ++ linkDirArgs projectDir exe.link_dirs
    ++ staticLibArgs cfg buildDir onDisk
    ++ ["-L", pathStr (buildDir ++ ["lib"])]
    ++ libArgs exe.libs
    ++ rpathArgsExe os buildDir
    ++ stripArgs os configuration

/-- Test link arguments (`link_tests`); note the tests sub-phase has no
release strip block in the source. -/
def linkTestCmdArgs (cfg : BuildConfig) (os : OS)
    (projectDir buildDir : Path) (t : TestTarget) (onDisk : Path → Bool)
    (sources : List Path) : List String :=
  ["-o", pathStr (buildDir ++ ["bin", "tests", exeFileName os t.name])]
    ++ (existingObjects buildDir projectDir onDisk sources).map pathStr
    ++ linkDirArgs projectDir t.link_dirs
    ++ staticLibArgs cfg buildDir onDisk
    ++ ["-L", pathStr (buildDir ++ ["lib"])]
    ++ libArgs t.libs
    ++ rpathArgsTest os buildDir

/-! ## Hash store and change detection (`Builder::detect_changed_files`,
`calculate_file_hash`)

The store is the parsed content of `<build_dir>/file_hashes.json`:
an association from source-path strings to hash strings (`None` when the
file does not exist on disk).  The SHA-256 compression itself lives in the
external `sha2` crate; the digest enters the model as a byte list, and
`calculateFileHash` embeds the `format!("{:x}", ...)` rendering: two
lowercase hex digits per byte. -/

abbrev HashStore := List (String × String)

def lookupStore (m : HashStore) (k : String) : Option String := m.lookup k

def hexDigit (n : Nat) : Char :=
  if n < 10 then Char.ofNat (48 + n) else Char.ofNat (87 + n)

def byteToHex (b : Nat) : List Char :=
  [hexDigit (b / 16 % 16), hexDigit (b % 16)]

/-- `calculate_file_hash` rendering: the digest bytes printed as a
lowercase hexadecimal string. -/
def calculateFileHash (digest : List Nat) : String :=
  String.mk (digest.flatMap byteToHex)

/-- The condition of `detect_changed_files`, verbatim:
`!previous_hashes.contains_key(&path_str) || previous_hashes.get(&path_str) != Some(&hash)`. -/
def fileChanged (prev : HashStore) (f : String) (h : String) : Bool :=
  !(lookupStore prev f).isSome || lookupStore prev f != some h

/-- All resolved source paths (as store keys), in target order. -/
def allFiles (sources : List (String × List String)) : List String :=
  sources.flatMap (fun tf => tf.2)

/-- The complete new hash map written by `detect_changed_files`: one entry
per scanned file with its freshly computed hash (not merged with the old
map). -/
def newHashes (sources : List (String × List String)) (hashOf : String → String) :
    HashStore :=
  (allFiles sources).map (fun f => (f, hashOf f))

/-- The changed map of `detect_changed_files`: per target, the changed
files in their resolution order; targets whose changed list is empty are
not inserted. -/
def detectChangedFiles (prev : HashStore) (sources : List (String × List String))
    (hashOf : String → String) : List (String × List String) :=
  (sources.map (fun tf => (tf.1, tf.2.filter (fun f => fileChanged prev f (hashOf f))))).filter
    (fun tf => !tf.2.isEmpty)

/-! ## The build pipeline (`Builder::build`)

State threaded explicitly: the resolved sources, the current content hash
of every file, the hash-store file on disk before the run (`none` = file
absent), the incremental flag, and which compile tasks would succeed.
The run record captures what the claims observe: the printed outcome, the
hash-store file after the run, the sources handed to the compile phase
(all attempted — a failing task does not cancel its peers), and whether
the link phase ran. -/

structure BuildInput where
  sources : List (String × List String)
  hashOf : String → String
  prevStore : Option HashStore
  incremental : Bool
  compileOk : String → Bool

inductive BuildOutcome where
  | upToDate
  | built
  | compileFailed
deriving DecidableEq

structure BuildRun where
  outcome : BuildOutcome
  finalStore : Option HashStore
  compiledFiles : List String
  linkPhaseRun : Bool

/-- `Builder::build` after source resolution: incremental mode runs
`detect_changed_files` (which writes the new hash file before returning);
otherwise every resolved file is treated as changed and the hash file is
untouched.  An empty changed map prints the up-to-date message and
returns before compiling; otherwise all changed files are compiled and
the link phase runs only when no compile task failed. -/
def runBuild (inp : BuildInput) : BuildRun :=
  let prev := inp.prevStore.getD []
  let changed :=
    if inp.incremental then detectChangedFiles prev inp.sources inp.hashOf
    else inp.sources
  let store :=
    if inp.incremental then some (newHashes inp.sources inp.hashOf)
    else inp.prevStore
  if changed.isEmpty then
    { outcome := .upToDate, finalStore := store, compiledFiles := [], linkPhaseRun := false }
  else
    let files := allFiles changed
    if files.all inp.compileOk then
      { outcome := .built, finalStore := store, compiledFiles := files, linkPhaseRun := true }
    else
      { outcome := .compileFailed, finalStore := store, compiledFiles := files,
        linkPhaseRun := false }

/-! ## Helper lemmas -/

/-- A string with a proper head cannot equal a string it does not lead:
used to separate builder-generated flags such as `-std=...`, `-l...`,
`-D...` from fixed flags like `-fPIC` or `-s`. -/
theorem append_ne_of_data_not_pre (p q : String) (h : ¬ p.data <+: q.data) :
    ∀ s : String, p ++ s ≠ q := by
  intro s he
  apply h
  rw [← he, String.data_append]
  exact List.prefix_append _ _

theorem revAfterDot_nodot (l rest : List Char) (h : ∀ c ∈ l, c ≠ '.') :
    revAfterDot (l ++ '.' :: rest) = some rest := by
  induction l with
  | nil => simp [revAfterDot]
  | cons c cs ih =>
    have hc : c ≠ '.' := h c (by simp)
    simp [revAfterDot, hc]
    exact ih (fun x hx => h x (by simp [hx]))

/-- `file_stem` of `<stem>.<ext>` is `<stem>` when the extension is
dot-free and the stem nonempty. -/
theorem fileStem_of_ext (stem ext : String) (hext : ∀ c ∈ ext.data, c ≠ '.')
    (hstem : stem ≠ "") : fileStem (stem ++ "." ++ ext) = stem := by
  have hdata : (stem ++ "." ++ ext).data = stem.data ++ '.' :: ext.data := by
    rw [String.data_append, String.data_append]
    simp
  unfold fileStem
  rw [hdata, List.reverse_append]
  have h1 : ('.' :: ext.data).reverse = ext.data.reverse ++ ['.'] := by simp
  rw [h1, List.append_assoc]
  have hrev : ∀ c ∈ ext.data.reverse, c ≠ '.' := fun c hc => hext c (List.mem_reverse.mp hc)
  rw [show (['.'] ++ stem.data.reverse) = '.' :: stem.data.reverse from rfl]
  rw [revAfterDot_nodot _ _ hrev]
  have hne : stem.data.reverse ≠ [] := by
    intro he
    apply hstem
    have h2 : stem.data = [] := by simpa using congrArg List.reverse he
    cases stem
    simp_all
  simp [hne]

theorem setExtO_of_ext (stem ext : String) (hext : ∀ c ∈ ext.data, c ≠ '.')
    (hstem : stem ≠ "") : setExtO (stem ++ "." ++ ext) = stem ++ ".o" := by
  rw [setExtO, fileStem_of_ext stem ext hext hstem]

theorem withExtO_append_single (rel : Path) (x : String) :
    withExtO (rel ++ [x]) = rel ++ [setExtO x] := by
  induction rel with
  | nil => rfl
  | cons a rest ih =>
    have hne : rest ++ [x] ≠ [] := by simp
    obtain ⟨y, ys, hys⟩ := List.exists_cons_of_ne_nil hne
    calc withExtO ((a :: rest) ++ [x]) = withExtO (a :: (rest ++ [x])) := by simp
      _ = a :: withExtO (rest ++ [x]) := by rw [hys]; rfl
      _ = a :: (rest ++ [setExtO x]) := by rw [ih]
      _ = (a :: rest) ++ [setExtO x] := by simp

theorem stripPrefixOrSelf_left (pre r : Path) :
    stripPrefixOrSelf pre (pre ++ r) = r := by
  unfold stripPrefixOrSelf
  rw [if_pos (List.prefix_append pre r)]
  exact List.drop_left pre r

theorem stripPrefixOrSelf_outside (pre p : Path) (h : ¬ pre <+: p) :
    stripPrefixOrSelf pre p = p := by
  unfold stripPrefixOrSelf
  rw [if_neg h]

/-! ## Claims C1 and C9: the source-to-object-path map -/

/-- C1, as stated, is false: the `.o` suffix is not appended to the full
relative source path; `with_extension("o")` replaces the final extension.
At the spec's own example, source `src/main.c` under project `proj` with
configuration `debug` yields object `proj/build/debug/obj/src/main.o`,
not `proj/build/debug/obj/src/main.c.o`. -/
theorem C1_append_suffix_counterexample :
    objectPath (buildDirOf ["proj"] "debug") ["proj"] ["proj", "src", "main.c"]
        = ["proj", "build", "debug", "obj", "src", "main.o"]
      ∧ objectPath (buildDirOf ["proj"] "debug") ["proj"] ["proj", "src", "main.c"]
        ≠ ["proj", "build", "debug", "obj", "src", "main.c.o"] := by
  constructor
  · rfl
  · decide

/-- C1 amended: the object path of a source is
`<build_dir>/obj/<s_relative>` with the file name's extension replaced by
`o` (for a file `<stem>.<ext>` with dot-free extension and nonempty stem,
`<stem>.o`); the link sub-phases recompute exactly the same path; and a
source outside the project directory keeps its full path as the relative
component. -/
theorem C1_object_path_amended (bd pd rel : Path) (stem ext : String) (src : Path)
    (hext : ∀ c ∈ ext.data, c ≠ '.') (hstem : stem ≠ "") (hout : ¬ pd <+: src) :
    (∀ b p s, linkObjectPath b p s = objectPath b p s)
      ∧ objectPath bd pd (pd ++ rel ++ [stem ++ "." ++ ext])
          = bd ++ ["obj"] ++ rel ++ [stem ++ ".o"]
      ∧ objectPath bd pd src = bd ++ ["obj"] ++ withExtO src := by
  refine ⟨fun _ _ _ => rfl, ?_, ?_⟩
  · unfold objectPath
    rw [List.append_assoc pd rel, stripPrefixOrSelf_left, withExtO_append_single,
      setExtO_of_ext stem ext hext hstem]
    simp
  · unfold objectPath
    rw [stripPrefixOrSelf_outside pd src hout]

/-- Witness for C1: concrete instantiation at `stem = "main"`, `ext = "c"`,
and the outside-project source `/tmp/x.c`. -/
theorem C1_object_path_amended_witness :
    objectPath ["proj", "build", "debug"] ["proj"]
        (["proj"] ++ ["src"] ++ ["main" ++ "." ++ "c"])
      = ["proj", "build", "debug"] ++ ["obj"] ++ ["src"] ++ ["main" ++ ".o"] :=
  (C1_object_path_amended ["proj", "build", "debug"] ["proj"] ["src"] "main" "c"
    ["tmp", "x.c"] (by decide) (by decide) (by decide)).2.1

/-- C9: the source-to-object map is not injective: two distinct sources
`src/foo.c` and `src/foo.cc` in the same directory receive the identical
object path `<build_dir>/obj/src/foo.o`, because `with_extension("o")`
replaces the extension. -/
theorem C9_object_path_collision :
    objectPath ["proj", "build", "debug"] ["proj"] ["proj", "src", "foo.c"]
        = objectPath ["proj", "build", "debug"] ["proj"] ["proj", "src", "foo.cc"]
      ∧ (["proj", "src", "foo.c"] : Path) ≠ ["proj", "src", "foo.cc"]
      ∧ objectPath ["proj", "build", "debug"] ["proj"] ["proj", "src", "foo.c"]
        = ["proj", "build", "debug", "obj", "src", "foo.o"] := by
  refine ⟨rfl, by decide, rfl⟩

/-! ## Claims C2, C3, C7: hash store lifecycle and incremental runs -/

/-- Any incremental run stores the complete new hash map on disk: the
write happens inside `detect_changed_files`, before the compile phase,
and in particular also when the run later fails or exits early. -/
theorem runBuild_incremental_store (inp : BuildInput) (h : inp.incremental = true) :
    (runBuild inp).finalStore = some (newHashes inp.sources inp.hashOf) := by
  unfold runBuild
  simp only [h, if_true]
  split
  · rfl
  · split <;> rfl

theorem lookup_map_hash (hashOf : String → String) (fs : List String) (f : String)
    (hf : f ∈ fs) :
    List.lookup f (fs.map (fun g => (g, hashOf g))) = some (hashOf f) := by
  induction fs with
  | nil => cases hf
  | cons a rest ih =>
    simp only [List.map_cons, List.lookup]
    by_cases hfa : f = a
    · subst hfa
      simp
    · have hb : (f == a) = false := by simp [hfa]
      rw [hb]
      rcases List.mem_cons.mp hf with h | h
      · exact absurd h hfa
      · exact ih h

theorem fileChanged_newHashes (sources : List (String × List String))
    (hashOf : String → String) (f : String) (hf : f ∈ allFiles sources) :
    fileChanged (newHashes sources hashOf) f (hashOf f) = false := by
  unfold fileChanged lookupStore newHashes
  rw [lookup_map_hash hashOf _ f hf]
  simp

/-- A scan against the hash map just written for the same tree reports no
changed file for any target. -/
theorem detectChanged_after_newHashes (sources : List (String × List String))
    (hashOf : String → String) :
    detectChangedFiles (newHashes sources hashOf) sources hashOf = [] := by
  unfold detectChangedFiles
  apply List.filter_eq_nil_iff.mpr
  intro tf htf
  rcases List.mem_map.mp htf with ⟨⟨t, l⟩, hmem, rfl⟩
  have hl : l.filter (fun f => fileChanged (newHashes sources hashOf) f (hashOf f)) = [] := by
    apply List.filter_eq_nil_iff.mpr
    intro f hfl
    have hf : f ∈ allFiles sources := List.mem_flatMap.mpr ⟨(t, l), hmem, hfl⟩
    simp [fileChanged_newHashes sources hashOf f hf]
  simp [hl]

/-- Input of an incremental run whose single compile task fails while the
file's stored hash is stale. -/
def exC2 : BuildInput :=
  { sources := [("exe:app", ["a.c"])]
    hashOf := fun _ => "h1"
    prevStore := some [("a.c", "h0")]
    incremental := true
    compileOk := fun _ => false }

/-- C2, as stated, is false: on an incremental run whose compile phase
fails, the hash-store file on disk is not left as it was — it was already
rewritten (with the new hashes) by `detect_changed_files`, which runs
before the compile phase. -/
theorem C2_store_counterexample :
    (runBuild exC2).outcome = .compileFailed
      ∧ (runBuild exC2).finalStore ≠ exC2.prevStore
      ∧ (runBuild exC2).finalStore = some [("a.c", "h1")] := by
  decide

/-- C2 amended: on every incremental run the hash-store file is rewritten
during change detection, before the compile phase, so a run with failing
compile tasks leaves the complete NEW hash map on disk, not the previous
file. -/
theorem C2_store_rewritten_before_compile (inp : BuildInput)
    (h : inp.incremental = true) :
    (runBuild inp).finalStore = some (newHashes inp.sources inp.hashOf) :=
  runBuild_incremental_store inp h

theorem C2_store_rewritten_before_compile_witness :
    (runBuild exC2).finalStore = some (newHashes exC2.sources exC2.hashOf) :=
  C2_store_rewritten_before_compile exC2 rfl

/-- Input of a non-incremental run over a tree whose stored hash is stale. -/
def exC3 : BuildInput :=
  { sources := [("exe:app", ["a.c"])]
    hashOf := fun _ => "h1"
    prevStore := some [("a.c", "h0")]
    incremental := false
    compileOk := fun _ => true }

/-- C3, as stated, is false: with incremental mode off every resolved
source is indeed passed to the compile phase, but the hash-store file is
NOT rewritten — `detect_changed_files` (the only writer) is skipped, so
the stale previous store stays on disk. -/
theorem C3_hash_rewrite_counterexample :
    (runBuild exC3).compiledFiles = ["a.c"]
      ∧ (runBuild exC3).finalStore = some [("a.c", "h0")]
      ∧ (runBuild exC3).finalStore ≠ some (newHashes exC3.sources exC3.hashOf) := by
  decide

/-- C3 amended: with incremental mode off, every resolved source file of
every target is passed to the compile phase, and the hash-store file is
left untouched (it is not rewritten). -/
theorem C3_non_incremental_all_changed (inp : BuildInput)
    (h : inp.incremental = false) :
    (runBuild inp).compiledFiles = allFiles inp.sources
      ∧ (runBuild inp).finalStore = inp.prevStore := by
  unfold runBuild
  simp only [h, Bool.false_eq_true, if_false]
  split
  · rename_i he
    have hs : inp.sources = [] := List.isEmpty_iff.mp he
    simp [hs, allFiles]
  · split <;> simp

theorem C3_non_incremental_all_changed_witness :
    (runBuild exC3).compiledFiles = allFiles exC3.sources
      ∧ (runBuild exC3).finalStore = exC3.prevStore :=
  C3_non_incremental_all_changed exC3 rfl

/-- The resolved sources and filesystem state shared by the two C7 runs. -/
def srcsC7 : List (String × List String) := [("exe:app", ["a.c"])]

/-- First `build()` invocation as the CLI performs it by default:
incremental is false unless `--incremental` is passed. -/
def inpC7first : BuildInput :=
  { sources := srcsC7
    hashOf := fun _ => "h"
    prevStore := none
    incremental := false
    compileOk := fun _ => true }

/-- Second default invocation, on the unmodified tree, seeing whatever
hash store the first run left behind. -/
def inpC7second : BuildInput :=
  { sources := srcsC7
    hashOf := fun _ => "h"
    prevStore := (runBuild inpC7first).finalStore
    incremental := false
    compileOk := fun _ => true }

/-- C7, as stated, is false: running `build()` twice in a row with its
default flags (incremental off) recompiles every file on the second run
and does not report the tree up to date. -/
theorem C7_counterexample :
    (runBuild inpC7second).outcome ≠ .upToDate
      ∧ (runBuild inpC7second).compiledFiles = ["a.c"]
      ∧ (runBuild inpC7second).linkPhaseRun = true := by
  decide

/-- C7 amended: when both invocations run in incremental mode, the second
build on an unmodified tree (same sources, same content hashes, the hash
store the first run wrote) reports all files up to date and returns
before the compile and link phases: zero compile tasks, no link phase. -/
theorem C7_incremental_second_run_noop (sources : List (String × List String))
    (hashOf : String → String) (prevStore : Option HashStore)
    (ok1 ok2 : String → Bool) :
    (runBuild { sources := sources, hashOf := hashOf
                prevStore := (runBuild { sources := sources, hashOf := hashOf
                                         prevStore := prevStore, incremental := true
                                         compileOk := ok1 }).finalStore
                incremental := true, compileOk := ok2 }).outcome = .upToDate
      ∧ (runBuild { sources := sources, hashOf := hashOf
                    prevStore := (runBuild { sources := sources, hashOf := hashOf
                                             prevStore := prevStore, incremental := true
                                             compileOk := ok1 }).finalStore
                    incremental := true, compileOk := ok2 }).compiledFiles = []
      ∧ (runBuild { sources := sources, hashOf := hashOf
                    prevStore := (runBuild { sources := sources, hashOf := hashOf
                                             prevStore := prevStore, incremental := true
                                             compileOk := ok1 }).finalStore
                    incremental := true, compileOk := ok2 }).linkPhaseRun = false := by
  rw [runBuild_incremental_store _ rfl]
  unfold runBuild
  simp [detectChanged_after_newHashes]

/-! ## Claim C5: the change classification -/

theorem hexDigit_mem_lower (n : Nat) (h : n < 16) :
    hexDigit n ∈ ("0123456789abcdef" : String).data := by
  interval_cases n <;> decide

/-- C5: a file is classified changed iff its key is absent from the
previous map or the stored hash differs from the new one; per target the
changed subset is the filter of that target's list, hence a sublist in
the original resolution order; targets with an empty changed subset are
omitted from the changed map; and the computed hash renders the digest as
lowercase hexadecimal characters. -/
theorem C5_change_detection (prev : HashStore) (hashOf : String → String)
    (sources : List (String × List String)) :
    (∀ f, fileChanged prev f (hashOf f) = true ↔
        (lookupStore prev f = none
          ∨ ∃ h0, lookupStore prev f = some h0 ∧ h0 ≠ hashOf f))
      ∧ (∀ t fs, (t, fs) ∈ detectChangedFiles prev sources hashOf ↔
          (fs ≠ [] ∧ ∃ fs0, (t, fs0) ∈ sources
            ∧ fs = fs0.filter (fun f => fileChanged prev f (hashOf f))))
      ∧ (∀ t fs, (t, fs) ∈ sources →
          List.Sublist (fs.filter (fun f => fileChanged prev f (hashOf f))) fs)
      ∧ (∀ digest, ∀ c ∈ (calculateFileHash digest).data,
          c ∈ ("0123456789abcdef" : String).data) := by
  refine ⟨?_, ?_, ?_, ?_⟩
  · intro f
    unfold fileChanged
    cases h : lookupStore prev f with
    | none => simp [h]
    | some h0 =>
      simp only [h, Option.isSome_some, Bool.not_true, Bool.false_or, bne_iff_ne]
      constructor
      · intro hne
        exact Or.inr ⟨h0, rfl, fun he => hne (by rw [he])⟩
      · rintro (hc | ⟨h1, he, hne⟩)
        · cases hc
        · intro hs
          apply hne
          rw [← Option.some.inj he]
          exact Option.some.inj hs
  · intro t fs
    unfold detectChangedFiles
    rw [List.mem_filter]
    constructor
    · rintro ⟨hmem, hne⟩
      rcases List.mem_map.mp hmem with ⟨⟨t0, fs0⟩, hmem0, heq⟩
      injection heq with h1 h2
      subst h1
      subst h2
      refine ⟨?_, fs0, hmem0, rfl⟩
      intro he
      rw [he] at hne
      simp at hne
    · rintro ⟨hne, fs0, hmem0, rfl⟩
      refine ⟨List.mem_map.mpr ⟨(t, fs0), hmem0, rfl⟩, ?_⟩
      simpa using hne
  · intro t fs _
    exact List.filter_sublist fs
  · intro digest c hc
    unfold calculateFileHash at hc
    rcases List.mem_flatMap.mp hc with ⟨b, _, hcb⟩
    unfold byteToHex at hcb
    simp only [List.mem_cons, List.not_mem_nil, or_false] at hcb
    rcases hcb with h | h <;> rw [h]
    · exact hexDigit_mem_lower _ (Nat.mod_lt _ (by norm_num))
    · exact hexDigit_mem_lower _ (Nat.mod_lt _ (by norm_num))

theorem C5_change_detection_witness :
    ("exe:app", ["a.c"]) ∈
      detectChangedFiles [] [("exe:app", ["a.c"])] (fun _ => "h") :=
  ((C5_change_detection [] (fun _ => "h") [("exe:app", ["a.c"])]).2.1
      "exe:app" ["a.c"]).mpr
    ⟨by decide, ["a.c"], by simp, by decide⟩

/-! ## Claim C4: the `NoSourceFiles` payload -/

/-- A manifest with a single executable target `hello` whose only glob
pattern matches nothing. -/
def cfgC4 : BuildConfig :=
  { build := { compiler := "cc", c_standard := none, cpp_standard := none
               optimization_level := none, debug_info := none
               warnings_as_errors := none, extra_flags := none }
    targets := { executable := [{ name := "hello", src := ["src/*.q"]
                                  include_dirs := none, link_dirs := none
                                  libs := none, defines := none
                                  extra_flags := none }]
                 static_lib := [], shared_lib := [], test := [] } }

/-- C4, as stated, is false: a target whose globs match nothing does get
the `NoSourceFiles` error, but the error's payload is the comma-joined
glob pattern list of the target (`patterns.join(", ")`), not the target
key `"<kind>:<name>"`. -/
theorem C4_payload_counterexample :
    resolveSourceFiles (fun _ => .ok []) cfgC4 ["proj"]
        = .error (.NoSourceFiles "src/*.q")
      ∧ ("src/*.q" : String) ≠ "exe:hello" := by
  constructor
  · rfl
  · decide

/-- C4 amended: for every target whose glob patterns together match zero
files (and whose patterns all expand without a glob error), source
resolution returns the `NoSourceFiles` error, and the error carries the
target's comma-joined pattern list as its payload. -/
theorem C4_no_source_files_payload (globFn : String → Except String (List Path))
    (projectDir : Path) (pats : List String) (k : String) (cfg : BuildConfig)
    (hres : resolveGlobList globFn projectDir pats = .ok [])
    (hkeys : targetKeyList cfg = [(k, pats)]) :
    resolveSourceFiles globFn cfg projectDir
      = .error (.NoSourceFiles (String.intercalate ", " pats)) := by
  unfold resolveSourceFiles
  rw [hkeys]
  unfold resolveKeyed
  unfold resolveGlobPatterns
  rw [hres]
  simp

theorem C4_no_source_files_payload_witness :
    resolveSourceFiles (fun _ => .ok []) cfgC4 ["proj"]
      = .error (.NoSourceFiles (String.intercalate ", " ["src/*.q"])) :=
  C4_no_source_files_payload (fun _ => .ok []) ["proj"] ["src/*.q"] "exe:hello"
    cfgC4 rfl rfl

/-! ## Claim C6: implicit auto-link of internal static libraries -/

/-- C6: the link command of every executable target and every test target
contains, as a positional argument, the archive path
`<build_dir>/lib/lib<name>.a` of each static-library target whose archive
exists on disk at link time; and the auto-link segment consists of
exactly those archive paths, so archives missing from disk are omitted
without an error. -/
theorem C6_static_autolink (cfg : BuildConfig) (os : OS) (configuration : String)
    (projectDir buildDir : Path) (exe : ExecutableTarget) (t : TestTarget)
    (onDisk : Path → Bool) (srcsE srcsT : List Path) :
    (∀ l ∈ cfg.targets.static_lib, onDisk (slibPath buildDir l.name) = true →
        pathStr (slibPath buildDir l.name)
            ∈ linkExeCmdArgs cfg os configuration projectDir buildDir exe onDisk srcsE
          ∧ pathStr (slibPath buildDir l.name)
            ∈ linkTestCmdArgs cfg os projectDir buildDir t onDisk srcsT)
      ∧ (∀ p, p ∈ staticLibArgs cfg buildDir onDisk ↔
          ∃ l, l ∈ cfg.targets.static_lib ∧ onDisk (slibPath buildDir l.name) = true
            ∧ p = pathStr (slibPath buildDir l.name)) := by
  constructor
  · intro l hl hdisk
    have hseg : pathStr (slibPath buildDir l.name) ∈ staticLibArgs cfg buildDir onDisk := by
      apply List.mem_map_of_mem
      exact List.mem_filter.mpr ⟨hl, hdisk⟩
    constructor
    · unfold linkExeCmdArgs
      simp only [List.append_assoc, List.mem_append]
      exact Or.inr (Or.inr (Or.inr (Or.inl hseg)))
    · unfold linkTestCmdArgs
      simp only [List.append_assoc, List.mem_append]
      exact Or.inr (Or.inr (Or.inr (Or.inl hseg)))
  · intro p
    unfold staticLibArgs
    constructor
    · intro hp
      rcases List.mem_map.mp hp with ⟨l, hl, rfl⟩
      rcases List.mem_filter.mp hl with ⟨hmem, hdisk⟩
      exact ⟨l, hmem, hdisk, rfl⟩
    · rintro ⟨l, hmem, hdisk, rfl⟩
      exact List.mem_map_of_mem _ (List.mem_filter.mpr ⟨hmem, hdisk⟩)

/-- Scenario 4 of the spec: one static library `m` and one executable. -/
def slibM : LibraryTarget :=
  { name := "m", src := ["src/m.c"], include_dirs := none, defines := none
    extra_flags := none }

def exeHello : ExecutableTarget :=
  { name := "hello", src := ["src/main.c"], include_dirs := none
    link_dirs := none, libs := none, defines := none, extra_flags := none }

def testHello : TestTarget :=
  { name := "t1", src := ["test/t1.c"], include_dirs := none
    link_dirs := none, libs := none, defines := none, extra_flags := none }

def cfgC6 : BuildConfig :=
  { build := { compiler := "cc", c_standard := none, cpp_standard := none
               optimization_level := none, debug_info := none
               warnings_as_errors := none, extra_flags := none }
    targets := { executable := [exeHello], static_lib := [slibM]
                 shared_lib := [], test := [testHello] } }

theorem C6_static_autolink_witness :
    ("build/debug/lib/libm.a" : String)
      ∈ linkExeCmdArgs cfgC6 .linux "debug" ["proj"] ["build", "debug"] exeHello
          (fun _ => true) [] :=
  ((C6_static_autolink cfgC6 .linux "debug" ["proj"] ["build", "debug"] exeHello
      testHello (fun _ => true) [] []).1 slibM (List.mem_singleton.mpr rfl) rfl).1

/-! ## Flag non-interference lemmas

The builder can only guarantee the presence/absence of a flag it controls
when the manifest's free-form strings (user extra flags, include dirs,
paths) do not themselves spell that flag; the lemmas below dispose of the
segments whose shape already rules the flag out. -/

theorem not_mem_stdArgs (cfg : BuildConfig) (q : String)
    (hq : ¬ ("-std=" : String).data <+: q.data) : q ∉ stdArgs cfg := by
  unfold stdArgs
  cases cfg.build.c_standard with
  | none => simp
  | some s =>
    simp only [List.mem_singleton]
    intro he
    exact append_ne_of_data_not_pre "-std=" q hq s he.symm

theorem not_mem_optArgs (cfg : BuildConfig) (q : String)
    (hq : ¬ ("-O" : String).data <+: q.data) : q ∉ optArgs cfg := by
  unfold optArgs
  cases cfg.build.optimization_level with
  | none => simp
  | some l =>
    simp only [List.mem_singleton]
    intro he
    exact append_ne_of_data_not_pre "-O" q hq (toString l) he.symm

theorem not_mem_debugArgs (cfg : BuildConfig) (q : String) (hq : q ≠ "-g") :
    q ∉ debugArgs cfg := by
  unfold debugArgs
  split <;> simp [hq]

theorem not_mem_werrorArgs (cfg : BuildConfig) (q : String) (hq : q ≠ "-Werror") :
    q ∉ werrorArgs cfg := by
  unfold werrorArgs
  split <;> simp [hq]

theorem not_mem_defineArgs (cfg : BuildConfig) (ttype tname : String) (q : String)
    (hq : ¬ ("-D" : String).data <+: q.data) : q ∉ defineArgs cfg ttype tname := by
  unfold defineArgs
  intro hmem
  rcases List.mem_map.mp hmem with ⟨kv, _, he⟩
  revert he
  split
  · intro he
    exact append_ne_of_data_not_pre "-D" q hq kv.1 he
  · intro he
    rw [String.append_assoc, String.append_assoc] at he
    exact append_ne_of_data_not_pre "-D" q hq _ he

theorem not_mem_configDefineArg (configuration : String) (q : String)
    (h1 : q ≠ "-DNDEBUG") (h2 : q ≠ "-D_DEBUG") :
    q ∉ configDefineArg configuration := by
  unfold configDefineArg
  split <;> simp [h1, h2]

theorem not_mem_picArgs (ttype : String) (q : String) (hq : q ≠ "-fPIC") :
    q ∉ picArgs ttype := by
  unfold picArgs
  split <;> simp [hq]

theorem mem_picArgs_shared (ttype : String) (q : String)
    (h : q ∈ picArgs ttype) : ttype = "shared" := by
  revert h
  unfold picArgs
  split
  · intro _
    assumption
  · intro h
    cases h

theorem not_mem_libArgs (libs : Option (List String)) (q : String)
    (hq : ¬ ("-l" : String).data <+: q.data) : q ∉ libArgs libs := by
  unfold libArgs
  intro hmem
  rcases List.mem_map.mp hmem with ⟨l, _, he⟩
  exact append_ne_of_data_not_pre "-l" q hq l he

theorem not_mem_stripArgs (os : OS) (configuration : String)
    (h : configuration ≠ "release") (q : String) : q ∉ stripArgs os configuration := by
  unfold stripArgs
  rw [if_neg h]
  exact List.not_mem_nil q

/-! ## Claim C8: `-fPIC` exactly for shared-library targets -/

/-- C8: provided the manifest's free-form strings (target extra flags,
global extra flags, include-dir arguments) and the source/object path
strings do not themselves spell `-fPIC`, a compile command contains
`-fPIC` if and only if the target being compiled is a shared-library
target; executables, static libraries and tests never get it. -/
theorem C8_fpic_iff_shared (cfg : BuildConfig) (configuration : String)
    (projectDir buildDir : Path) (ttype tname : String) (source : Path)
    (hsrc : pathStr source ≠ "-fPIC")
    (hobj : pathStr (objectPath buildDir projectDir source) ≠ "-fPIC")
    (hinc : "-fPIC" ∉ includeArgs cfg ttype tname projectDir)
    (hflag : "-fPIC" ∉ findExtraFlags cfg ttype tname)
    (hglob : "-fPIC" ∉ globalExtraFlags cfg) :
    "-fPIC" ∈ compileCmdArgs cfg configuration projectDir buildDir ttype tname source
      ↔ ttype = "shared" := by
  constructor
  · intro h
    unfold compileCmdArgs at h
    rcases List.mem_append.mp h with h | hg
    rcases List.mem_append.mp h with h | hp
    rcases List.mem_append.mp h with h | hcd
    rcases List.mem_append.mp h with h | hef
    rcases List.mem_append.mp h with h | hd
    rcases List.mem_append.mp h with h | hi
    rcases List.mem_append.mp h with h | hw
    rcases List.mem_append.mp h with h | hdbg
    rcases List.mem_append.mp h with h | ho
    rcases List.mem_append.mp h with h | hstd
    · simp only [List.mem_cons, List.not_mem_nil, or_false] at h
      rcases h with h | h | h | h
      · exact absurd h (by decide)
      · exact absurd h.symm hsrc
      · exact absurd h (by decide)
      · exact absurd h.symm hobj
    · exact absurd hstd (not_mem_stdArgs cfg _ (by decide))
    · exact absurd ho (not_mem_optArgs cfg _ (by decide))
    · exact absurd hdbg (not_mem_debugArgs cfg _ (by decide))
    · exact absurd hw (not_mem_werrorArgs cfg _ (by decide))
    · exact absurd hi hinc
    · exact absurd hd (not_mem_defineArgs cfg ttype tname _ (by decide))
    · exact absurd hef hflag
    · exact absurd hcd (not_mem_configDefineArg configuration _ (by decide) (by decide))
    · exact mem_picArgs_shared ttype _ hp
    · exact absurd hg hglob
  · intro h
    unfold compileCmdArgs
    refine List.mem_append.mpr (Or.inl (List.mem_append.mpr (Or.inr ?_)))
    simp [picArgs, h]

/-- A minimal manifest with one shared library `s`. -/
def cfgC8 : BuildConfig :=
  { build := { compiler := "cc", c_standard := none, cpp_standard := none
               optimization_level := none, debug_info := none
               warnings_as_errors := none, extra_flags := none }
    targets := { executable := [], static_lib := []
                 shared_lib := [{ name := "s", src := ["src/s.c"]
                                  include_dirs := none, defines := none
                                  extra_flags := none }], test := [] } }

theorem C8_fpic_iff_shared_witness :
    ("-fPIC" : String)
      ∈ compileCmdArgs cfgC8 "debug" ["proj"] ["proj", "build", "debug"] "shared" "s"
          ["proj", "src", "s.c"] :=
  (C8_fpic_iff_shared cfgC8 "debug" ["proj"] ["proj", "build", "debug"] "shared" "s"
      ["proj", "src", "s.c"] (by decide) (by decide) (by decide) (by decide)
      (by decide)).mpr rfl

/-! ## Claim C10: configuration strings other than "release" -/

/-- C10: the build accepts any configuration string `c`: the build
directory is `<project>/build/<c>`, and whenever `c` is not exactly
`"release"` the build behaves like debug — the compile command contains
`-D_DEBUG` and (provided user-controlled strings do not spell it) no
`-DNDEBUG`, and no `-s` strip flag is added to shared-library or
executable link commands (again provided no user-controlled argument
spells `-s`). -/
theorem C10_non_release_is_debug (cfg : BuildConfig) (c : String)
    (projectDir buildDir : Path) (ttype tname : String) (source : Path) (os : OS)
    (lib : LibraryTarget) (exe : ExecutableTarget) (onDisk : Path → Bool)
    (srcsL srcsE : List Path)
    (hc : c ≠ "release")
    (h1 : "-DNDEBUG" ∉ includeArgs cfg ttype tname projectDir)
    (h2 : "-DNDEBUG" ∉ defineArgs cfg ttype tname)
    (h3 : "-DNDEBUG" ∉ findExtraFlags cfg ttype tname)
    (h4 : "-DNDEBUG" ∉ globalExtraFlags cfg)
    (h5 : pathStr source ≠ "-DNDEBUG")
    (h6 : pathStr (objectPath buildDir projectDir source) ≠ "-DNDEBUG")
    (h7 : "-s" ∉ (existingObjects buildDir projectDir onDisk srcsL).map pathStr)
    (h8 : "-s" ∉ (existingObjects buildDir projectDir onDisk srcsE).map pathStr)
    (h9 : "-s" ∉ linkDirArgs projectDir exe.link_dirs)
    (h10 : "-s" ∉ staticLibArgs cfg buildDir onDisk)
    (h11 : pathStr (buildDir ++ ["lib", sharedLibFileName os lib.name]) ≠ "-s")
    (h12 : pathStr (buildDir ++ ["bin", exeFileName os exe.name]) ≠ "-s")
    (h13 : pathStr (buildDir ++ ["lib"]) ≠ "-s") :
    buildDirOf projectDir c = projectDir ++ ["build", c]
      ∧ "-D_DEBUG" ∈ compileCmdArgs cfg c projectDir buildDir ttype tname source
      ∧ "-DNDEBUG" ∉ compileCmdArgs cfg c projectDir buildDir ttype tname source
      ∧ "-s" ∉ linkSharedCmdArgs os c projectDir buildDir lib onDisk srcsL
      ∧ "-s" ∉ linkExeCmdArgs cfg os c projectDir buildDir exe onDisk srcsE := by
  refine ⟨rfl, ?_, ?_, ?_, ?_⟩
  · unfold compileCmdArgs
    refine List.mem_append.mpr (Or.inl (List.mem_append.mpr (Or.inl
      (List.mem_append.mpr (Or.inr ?_)))))
    simp [configDefineArg, hc]
  · intro h
    unfold compileCmdArgs at h
    rcases List.mem_append.mp h with h | hg
    rcases List.mem_append.mp h with h | hp
    rcases List.mem_append.mp h with h | hcd
    rcases List.mem_append.mp h with h | hef
    rcases List.mem_append.mp h with h | hd
    rcases List.mem_append.mp h with h | hi
    rcases List.mem_append.mp h with h | hw
    rcases List.mem_append.mp h with h | hdbg
    rcases List.mem_append.mp h with h | ho
    rcases List.mem_append.mp h with h | hstd
    · simp only [List.mem_cons, List.not_mem_nil, or_false] at h
      rcases h with h | h | h | h
      · exact absurd h (by decide)
      · exact absurd h.symm h5
      · exact absurd h (by decide)
      · exact absurd h.symm h6
    · exact absurd hstd (not_mem_stdArgs cfg _ (by decide))
    · exact absurd ho (not_mem_optArgs cfg _ (by decide))
    · exact absurd hdbg (not_mem_debugArgs cfg _ (by decide))
    · exact absurd hw (not_mem_werrorArgs cfg _ (by decide))
    · exact absurd hi h1
    · exact absurd hd h2
    · exact absurd hef h3
    · revert hcd
      unfold configDefineArg
      rw [if_neg hc]
      simp
    · exact absurd hp (not_mem_picArgs ttype _ (by decide))
    · exact absurd hg h4
  · intro h
    unfold linkSharedCmdArgs at h
    rcases List.mem_append.mp h with h | hstrip
    rcases List.mem_append.mp h with h | hinst
    rcases List.mem_append.mp h with h | hobjs
    · simp only [List.mem_cons, List.not_mem_nil, or_false] at h
      rcases h with h | h | h
      · exact absurd h (by decide)
      · exact absurd h (by decide)
      · exact absurd h.symm h11
    · exact absurd hobjs h7
    · revert hinst
      cases os
      · simp
      · simp only [List.mem_cons, List.not_mem_nil, or_false]
        intro he
        rcases he with he | he
        · exact absurd he (by decide)
        · exact append_ne_of_data_not_pre "@rpath/" "-s" (by decide) _ he.symm
      · simp
    · exact absurd hstrip (not_mem_stripArgs os c hc "-s")
  · intro h
    unfold linkExeCmdArgs at h
    rcases List.mem_append.mp h with h | hstrip
    rcases List.mem_append.mp h with h | hrpath
    rcases List.mem_append.mp h with h | hlibs
    rcases List.mem_append.mp h with h | hL
    rcases List.mem_append.mp h with h | hstat
    rcases List.mem_append.mp h with h | hld
    rcases List.mem_append.mp h with h | hobjs
    · simp only [List.mem_cons, List.not_mem_nil, or_false] at h
      rcases h with h | h
      · exact absurd h (by decide)
      · exact absurd h.symm h12
    · exact absurd hobjs h8
    · exact absurd hld h9
    · exact absurd hstat h10
    · simp only [List.mem_cons, List.not_mem_nil, or_false] at hL
      rcases hL with h | h
      · exact absurd h (by decide)
      · exact absurd h.symm h13
    · exact absurd hlibs (not_mem_libArgs exe.libs _ (by decide))
    · revert hrpath
      unfold rpathArgsExe
      cases os
      · simp only [List.mem_cons, List.not_mem_nil, or_false]
        intro he
        exact append_ne_of_data_not_pre "-Wl,-rpath," "-s" (by decide) _ he.symm
      · simp
      · simp
    · exact absurd hstrip (not_mem_stripArgs os c hc "-s")

theorem C10_non_release_is_debug_witness :
    ("-D_DEBUG" : String)
      ∈ compileCmdArgs cfgC6 "custom" ["proj"] ["proj", "build", "custom"] "exe"
          "hello" ["proj", "src", "main.c"] :=
  (C10_non_release_is_debug cfgC6 "custom" ["proj"] ["proj", "build", "custom"]
      "exe" "hello" ["proj", "src", "main.c"] .linux slibM exeHello (fun _ => true)
      [] [] (by decide) (by decide) (by decide) (by decide) (by decide) (by decide)
      (by decide) (by decide) (by decide) (by decide) (by decide) (by decide)
      (by decide) (by decide)).2.1

end CBuild
